import Mathlib

/-!
Shallow embedding of the Flip 7 strategy engine (`src/strategy.js`).

Card counts are natural numbers; JS floating-point arithmetic on the
probability/EV side is modelled exactly over `ℚ` (every operation involved is
`+ - * /` and comparison on values derived from small integer counts).
A JS pool object `{0: n₀, …, 12: n₁₂, total: t}` is modelled as a structure
with a count function `vals : ℕ → ℕ` (reads of absent keys yield 0, matching
`pool[i] || 0`) and a separate `total` field, since `total` is stored, not
derived, on the JS object.
-/

namespace Flip7

/-- Deck composition from `strategy.js`: index = card number, value = count in
deck (`DECK_COMPOSITION = [1, 1, 2, 3, 4, 5, 6, 7, 8, 9, 10, 11, 12]`). -/
def DECK_COMPOSITION : List ℕ := [1, 1, 2, 3, 4, 5, 6, 7, 8, 9, 10, 11, 12]

/-- Array read `DECK_COMPOSITION[i]` (0 outside the index range). -/
def deckComp (i : ℕ) : ℕ := DECK_COMPOSITION.getD i 0

/-- `TOTAL_NUMBER_CARDS = DECK_COMPOSITION.reduce((a, b) => a + b, 0)` (= 79). -/
def TOTAL_NUMBER_CARDS : ℕ := DECK_COMPOSITION.sum

/-- `FLIP_7_BONUS = 15`. -/
def FLIP_7_BONUS : ℕ := 15

/-- Model of the JS pool object returned by `getUnknownPool` (and of any object
with numeric keys plus a `total` key that callers may pass around): `vals i`
is the read `pool[i] || 0`, `total` the stored `pool.total`. -/
structure Pool where
  vals : ℕ → ℕ
  total : ℕ

/-- `getUnknownPool(revealedCounts)`: for each `i` in `0..12`,
`pool[i] = Math.max(0, DECK_COMPOSITION[i] - revealedCounts[i])`; keys outside
`0..12` are absent (read as 0); `pool.total` accumulates the thirteen entries.
Natural-number truncated subtraction is exactly `max(0, ·-·)` on integers. -/
def getUnknownPool (revealedCounts : ℕ → ℕ) : Pool :=
  let vals : ℕ → ℕ := fun i => if i ≤ 12 then deckComp i - revealedCounts i else 0
  { vals := vals
    total := ((List.range 13).map vals).sum }

/-- `calculateBustProbability(myCards, unknownPool)`: 0 when `total === 0`,
otherwise the sum of `unknownPool[card] || 0` over the entries of `myCards`
divided by `unknownPool.total`. -/
def calculateBustProbability (myCards : List ℕ) (unknownPool : Pool) : ℚ :=
  if unknownPool.total = 0 then 0
  else ((myCards.map (fun card => unknownPool.vals card)).sum : ℚ) / (unknownPool.total : ℚ)

/-- The values `i` in `0..12` with `!myCardSet.has(i)` and `unknownPool[i] > 0`:
the loop filter shared by `calculateExpectedDrawValue` (lines 69-78) and
`calculateFlip7Potential` (lines 115-120). -/
def safeValues (myCards : List ℕ) (unknownPool : Pool) : List ℕ :=
  (List.range 13).filter (fun i => decide (i ∉ myCards ∧ 0 < unknownPool.vals i))

/-- `calculateExpectedDrawValue(myCards, unknownPool, hasX2)`. -/
def calculateExpectedDrawValue (myCards : List ℕ) (unknownPool : Pool) (hasX2 : Bool) : ℚ :=
  if unknownPool.total = 0 then 0
  else
    let safe := safeValues myCards unknownPool
    let weightedSum : ℕ := (safe.map (fun i => i * unknownPool.vals i)).sum
    let safeCardCount : ℕ := (safe.map (fun i => unknownPool.vals i)).sum
    if safeCardCount = 0 then 0
    else
      let expectedValue : ℚ := (weightedSum : ℚ) / (safeCardCount : ℚ)
      if hasX2 then expectedValue * 2 else expectedValue

/-- `calculateCurrentPoints(myCards, hasX2)`. -/
def calculateCurrentPoints (myCards : List ℕ) (hasX2 : Bool) : ℕ :=
  let sum := myCards.sum
  if hasX2 then sum * 2 else sum

/-- `calculateFlip7Potential(myCards, unknownPool)`; `cardsNeeded` is an
integer since `7 - myCards.length` may be negative in JS. -/
def calculateFlip7Potential (myCards : List ℕ) (unknownPool : Pool) : ℚ :=
  let cardsNeeded : ℤ := 7 - (myCards.length : ℤ)
  if cardsNeeded ≤ 0 then 1
  else if 3 < cardsNeeded then 0
  else
    let safe := safeValues myCards unknownPool
    let distinctSafeCards : ℕ := safe.length
    let totalSafeCards : ℕ := (safe.map (fun i => unknownPool.vals i)).sum
    if (distinctSafeCards : ℤ) < cardsNeeded then 0
    else
      let baseProbability : ℚ := (totalSafeCards : ℚ) / (unknownPool.total : ℚ)
      let scaleFactor : ℚ := (7 / 10 : ℚ) ^ cardsNeeded.toNat
      baseProbability * scaleFactor

/-- `calculateEffectiveBustWithSecondChance(pBust, myCards, unknownPool)`:
`pBust * pBust * 0.8`; the last two parameters are accepted and ignored, as in
the source. -/
def calculateEffectiveBustWithSecondChance (pBust : ℚ) (_myCards : List ℕ)
    (_unknownPool : Pool) : ℚ :=
  pBust * pBust * (8 / 10 : ℚ)

/-- Input object of `calculateStrategy`. -/
structure StrategyParams where
  myCards : List ℕ
  revealedCounts : ℕ → ℕ
  hasSecondChance : Bool
  hasX2 : Bool

/-- Output object of `calculateStrategy`; `unknownPool` is absent (`none`) on
the two early-return branches, which do not set that key. -/
structure StrategyResult where
  recommendation : String
  bustProbability : ℚ
  effectiveBustProbability : ℚ
  evHit : ℚ
  evStay : ℚ
  confidence : ℚ
  flip7Potential : ℚ
  dangerCards : List ℕ
  unknownPool : Option Pool

/-- `calculateStrategy({myCards, revealedCounts, hasSecondChance, hasX2})`. -/
def calculateStrategy (p : StrategyParams) : StrategyResult :=
  if p.myCards.length = 0 then
    { recommendation := "HIT"
      bustProbability := 0
      effectiveBustProbability := 0
      evHit := (TOTAL_NUMBER_CARDS : ℚ) / 13 * (if p.hasX2 then 2 else 1)
      evStay := 0
      confidence := 1
      flip7Potential := 0
      dangerCards := []
      unknownPool := none }
  else if 7 ≤ p.myCards.length then
    let currentPoints : ℚ := (calculateCurrentPoints p.myCards p.hasX2 : ℚ) + (FLIP_7_BONUS : ℚ)
    { recommendation := "STAY"
      bustProbability := 0
      effectiveBustProbability := 0
      evHit := currentPoints
      evStay := currentPoints
      confidence := 1
      flip7Potential := 1
      dangerCards := []
      unknownPool := none }
  else
    let unknownPool := getUnknownPool p.revealedCounts
    let currentPoints : ℚ := (calculateCurrentPoints p.myCards p.hasX2 : ℚ)
    let pBust := calculateBustProbability p.myCards unknownPool
    let effectivePBust :=
      if p.hasSecondChance
      then calculateEffectiveBustWithSecondChance pBust p.myCards unknownPool
      else pBust
    let expectedDrawValue := calculateExpectedDrawValue p.myCards unknownPool p.hasX2
    let flip7Potential := calculateFlip7Potential p.myCards unknownPool
    let flip7ExpectedBonus := flip7Potential * (FLIP_7_BONUS : ℚ)
    let pNotBust := 1 - effectivePBust
    let evHit := pNotBust * (currentPoints + expectedDrawValue + flip7ExpectedBonus)
    let evStay := currentPoints
    let recommendation :=
      if evStay < evHit then "HIT" else if evHit < evStay then "STAY" else "TOSS-UP"
    let confidence :=
      if 0 < evStay then min 1 (|evHit - evStay| / evStay)
      else if 0 < evHit then 1 else 0
    let dangerCards := p.myCards.filter (fun card => decide (0 < unknownPool.vals card))
    { recommendation := recommendation
      bustProbability := pBust
      effectiveBustProbability := effectivePBust
      evHit := evHit
      evStay := evStay
      confidence := confidence
      flip7Potential := flip7Potential
      dangerCards := dangerCards
      unknownPool := some unknownPool }

end Flip7

namespace Flip7

/-! Helper lemmas shared by several claims. -/

/-- The `total` field of a pool built by `getUnknownPool` is (definitionally)
the sum of its thirteen entries. -/
lemma getUnknownPool_total (rc : ℕ → ℕ) :
    (getUnknownPool rc).total = ((List.range 13).map (getUnknownPool rc).vals).sum := rfl

/-- Membership in the safe-value list computed by the two loops. -/
lemma mem_safeValues {myCards : List ℕ} {pool : Pool} {i : ℕ} :
    i ∈ safeValues myCards pool ↔ i < 13 ∧ i ∉ myCards ∧ 0 < pool.vals i := by
  simp [safeValues, List.mem_filter, List.mem_range, and_assoc]

/-- Summing `f` over a duplicate-free list of values below 13 is at most
summing `f` over all of `0..12`. -/
lemma list_sum_le_range13 (f : ℕ → ℕ) (l : List ℕ) (hnd : l.Nodup)
    (hlt : ∀ c ∈ l, c < 13) :
    (l.map f).sum ≤ ((List.range 13).map f).sum := by
  have h1 : (l.map f).sum = l.toFinset.sum f := (List.sum_toFinset f hnd).symm
  have h2 : ((List.range 13).map f).sum = ∑ x ∈ Finset.range 13, f x := rfl
  rw [h1, h2]
  refine Finset.sum_le_sum_of_subset ?_
  intro x hx
  simp only [List.mem_toFinset] at hx
  exact Finset.mem_range.2 (hlt x hx)

/-- A pool whose `total` field really is the sum of its thirteen entries has a
positive total as soon as one safe value exists. -/
lemma pos_total_of_mem_safe {myCards : List ℕ} {pool : Pool} {i : ℕ}
    (htot : pool.total = ((List.range 13).map pool.vals).sum)
    (hi : i ∈ safeValues myCards pool) : 0 < pool.total := by
  rcases mem_safeValues.1 hi with ⟨h13, -, hpos⟩
  have hmem : pool.vals i ∈ (List.range 13).map pool.vals :=
    List.mem_map_of_mem pool.vals (List.mem_range.2 h13)
  have hle : pool.vals i ≤ ((List.range 13).map pool.vals).sum :=
    List.single_le_sum (by simp) _ hmem
  omega

/-- The safe-value counts sum to at most the pool total, for an honest pool. -/
lemma safe_sum_le_total (myCards : List ℕ) (pool : Pool)
    (htot : pool.total = ((List.range 13).map pool.vals).sum) :
    ((safeValues myCards pool).map (fun i => pool.vals i)).sum ≤ pool.total := by
  rw [htot]
  exact ((List.filter_sublist _).map _).sum_le_sum (by simp)

/-- C3: for every revealed-count mapping and every face value `v ≤ 12`,
`getUnknownPool` stores `max(0, DECK_COMPOSITION[v] − revealedCounts[v])` at
`v` (so no entry is ever negative, even when the revealed count exceeds the
deck composition), and its `total` equals the sum of the thirteen entries. -/
theorem getUnknownPool_spec (rc : ℕ → ℕ) (v : ℕ) (hv : v ≤ 12) :
    ((getUnknownPool rc).vals v : ℤ) = max 0 ((deckComp v : ℤ) - (rc v : ℤ)) ∧
    (getUnknownPool rc).total = ((List.range 13).map (getUnknownPool rc).vals).sum := by
  constructor
  · have h : (getUnknownPool rc).vals v = deckComp v - rc v := by
      simp [getUnknownPool, hv]
    rw [h]
    omega
  · rfl

/-- Witness for C3 at `v = 5` with every revealed count 99, far above the deck
composition: the entry is clamped to 0 rather than going negative. -/
theorem getUnknownPool_spec_witness :
    (5 : ℕ) ≤ 12 ∧
    (((getUnknownPool (fun _ => 99)).vals 5 : ℤ) =
        max 0 ((deckComp 5 : ℤ) - ((99 : ℕ) : ℤ)) ∧
      (getUnknownPool (fun _ => 99)).total =
        ((List.range 13).map (getUnknownPool (fun _ => 99)).vals).sum) :=
  ⟨by decide, getUnknownPool_spec (fun _ => 99) 5 (by decide)⟩

/-- C2: `calculateBustProbability` returns 0 when the pool total is 0 and
otherwise the sum of the pool entries at the held values divided by the total;
for a duplicate-free hand of face values in `0..12` and a pool produced by
`getUnknownPool` the result lies in `[0, 1]`; and on hand `{5}` with only that
5 revealed the result is `4/78`. -/
theorem calculateBustProbability_spec (myCards : List ℕ) (pool : Pool) (rc : ℕ → ℕ)
    (hnd : myCards.Nodup) (hmem : ∀ c ∈ myCards, c ≤ 12) :
    (pool.total = 0 → calculateBustProbability myCards pool = 0) ∧
    (pool.total ≠ 0 →
      calculateBustProbability myCards pool =
        (myCards.toFinset.sum (fun v => (pool.vals v : ℕ)) : ℚ) / (pool.total : ℚ)) ∧
    (0 ≤ calculateBustProbability myCards (getUnknownPool rc) ∧
      calculateBustProbability myCards (getUnknownPool rc) ≤ 1) ∧
    calculateBustProbability [5] (getUnknownPool (fun v => if v = 5 then 1 else 0)) = 4 / 78 := by
  refine ⟨fun h => by simp [calculateBustProbability, h], fun h => ?_, ⟨?_, ?_⟩, ?_⟩
  · rw [calculateBustProbability, if_neg h, List.sum_toFinset _ hnd]
    norm_cast
    rw [List.map_map]
    rfl
  · unfold calculateBustProbability
    split
    · exact le_refl 0
    · positivity
  · unfold calculateBustProbability
    split
    · exact zero_le_one
    · rename_i h
      rw [div_le_one (by exact_mod_cast Nat.pos_of_ne_zero h)]
      have hle : ((myCards.map (fun card => (getUnknownPool rc).vals card)).sum : ℕ) ≤
          (getUnknownPool rc).total := by
        rw [getUnknownPool_total]
        exact list_sum_le_range13 _ myCards hnd (fun c hc => by
          have := hmem c hc; omega)
      exact_mod_cast hle
  · have h1 : (getUnknownPool (fun v => if v = 5 then 1 else 0)).total = 78 := rfl
    have h2 : (([5] : List ℕ).map
        (fun card => (getUnknownPool (fun v => if v = 5 then 1 else 0)).vals card)).sum = 4 := rfl
    unfold calculateBustProbability
    rw [h2, h1]
    norm_num

/-- Witness for C2 on the spec's own example: hand `{5}`, only that 5
revealed; the bust probability is in `[0, 1]` and equals `4/78`. -/
theorem calculateBustProbability_spec_witness :
    ([5] : List ℕ).Nodup ∧
    (0 ≤ calculateBustProbability [5] (getUnknownPool (fun v => if v = 5 then 1 else 0)) ∧
      calculateBustProbability [5] (getUnknownPool (fun v => if v = 5 then 1 else 0)) ≤ 1) ∧
    calculateBustProbability [5] (getUnknownPool (fun v => if v = 5 then 1 else 0)) = 4 / 78 := by
  have h := calculateBustProbability_spec [5]
    (getUnknownPool (fun v => if v = 5 then 1 else 0))
    (fun v => if v = 5 then 1 else 0) (by decide) (by decide)
  exact ⟨by decide, h.2.2.1, h.2.2.2⟩

end Flip7

namespace Flip7

/-- C4: `calculateExpectedDrawValue` averages over the safe values (face
values in `0..12` not held and with remaining copies), returns the
count-weighted mean, returns 0 when no safe value remains, and doubles the
result under `hasX2`.  The pool is assumed honest: its `total` field is the
sum of its thirteen entries (true of every pool the program builds). -/
theorem calculateExpectedDrawValue_spec (myCards : List ℕ) (pool : Pool) (hasX2 : Bool)
    (htot : pool.total = ((List.range 13).map pool.vals).sum) :
    (∀ i, i ∈ safeValues myCards pool ↔ i < 13 ∧ i ∉ myCards ∧ 0 < pool.vals i) ∧
    (safeValues myCards pool = [] → calculateExpectedDrawValue myCards pool hasX2 = 0) ∧
    (safeValues myCards pool ≠ [] →
      calculateExpectedDrawValue myCards pool hasX2 =
        (((safeValues myCards pool).map (fun i => i * pool.vals i)).sum : ℚ) /
            (((safeValues myCards pool).map (fun i => pool.vals i)).sum : ℚ) *
          (if hasX2 then 2 else 1)) := by
  refine ⟨fun i => mem_safeValues, fun h => ?_, fun h => ?_⟩
  · simp [calculateExpectedDrawValue, h]
  · obtain ⟨i, hi⟩ := List.exists_mem_of_ne_nil _ h
    have hT : pool.total ≠ 0 := (pos_total_of_mem_safe htot hi).ne'
    have hvpos : 0 < pool.vals i := (mem_safeValues.1 hi).2.2
    have hcc : ((safeValues myCards pool).map (fun i => pool.vals i)).sum ≠ 0 := by
      have hmem : pool.vals i ∈ (safeValues myCards pool).map (fun i => pool.vals i) :=
        List.mem_map_of_mem _ hi
      have hle : pool.vals i ≤ ((safeValues myCards pool).map (fun i => pool.vals i)).sum :=
        List.single_le_sum (by simp) _ hmem
      omega
    cases hasX2 <;> simp [calculateExpectedDrawValue, hT, hcc]

/-- Witness for C4: hand `{0}` against an untouched deck, with ×2 active. -/
theorem calculateExpectedDrawValue_spec_witness :
    calculateExpectedDrawValue [0] (getUnknownPool (fun _ => 0)) true =
      (((safeValues [0] (getUnknownPool (fun _ => 0))).map
          (fun i => i * (getUnknownPool (fun _ => 0)).vals i)).sum : ℚ) /
          (((safeValues [0] (getUnknownPool (fun _ => 0))).map
            (fun i => (getUnknownPool (fun _ => 0)).vals i)).sum : ℚ) * 2 := by
  have h := (calculateExpectedDrawValue_spec [0] (getUnknownPool (fun _ => 0)) true rfl).2.2
    (by decide)
  simpa using h

/-- Shared computation: in the regime `1 ≤ needed ≤ 3` with enough distinct
safe values, `calculateFlip7Potential` is the draw-density times the
geometric decay. -/
lemma flip7_middle_eq (myCards : List ℕ) (pool : Pool)
    (h4 : 4 ≤ myCards.length) (h7 : myCards.length < 7)
    (hd : 7 - (myCards.length : ℤ) ≤ ((safeValues myCards pool).length : ℤ)) :
    calculateFlip7Potential myCards pool =
      (((safeValues myCards pool).map (fun i => pool.vals i)).sum : ℚ) / (pool.total : ℚ) *
        (7 / 10 : ℚ) ^ (7 - myCards.length) := by
  have h1 : ¬ ((7 : ℤ) - (myCards.length : ℤ) ≤ 0) := by omega
  have h2 : ¬ ((3 : ℤ) < 7 - (myCards.length : ℤ)) := by omega
  have h3 : ¬ (((safeValues myCards pool).length : ℤ) < 7 - (myCards.length : ℤ)) := by omega
  have he : ((7 : ℤ) - (myCards.length : ℤ)).toNat = 7 - myCards.length := by omega
  simp only [calculateFlip7Potential]
  rw [if_neg h1, if_neg h2, if_neg h3, he]

/-- C5: the four regimes of `calculateFlip7Potential`, with
`needed = 7 − |hand|`: result 1 when `needed ≤ 0` (hand size ≥ 7); result 0
when `needed > 3` (hand size ≤ 3); result 0 when fewer distinct safe values
than `needed` remain; otherwise `(totalSafe / pool.total) × 0.7^needed`. -/
theorem calculateFlip7Potential_spec (myCards : List ℕ) (pool : Pool) :
    (7 ≤ myCards.length → calculateFlip7Potential myCards pool = 1) ∧
    (myCards.length ≤ 3 → calculateFlip7Potential myCards pool = 0) ∧
    (((safeValues myCards pool).length : ℤ) < 7 - (myCards.length : ℤ) →
      calculateFlip7Potential myCards pool = 0) ∧
    (4 ≤ myCards.length → myCards.length < 7 →
      7 - (myCards.length : ℤ) ≤ ((safeValues myCards pool).length : ℤ) →
      calculateFlip7Potential myCards pool =
        (((safeValues myCards pool).map (fun i => pool.vals i)).sum : ℚ) / (pool.total : ℚ) *
          (7 / 10 : ℚ) ^ (7 - myCards.length)) := by
  refine ⟨fun h => ?_, fun h => ?_, fun h => ?_, flip7_middle_eq myCards pool⟩
  · have h1 : (7 : ℤ) - (myCards.length : ℤ) ≤ 0 := by omega
    simp only [calculateFlip7Potential]
    rw [if_pos h1]
  · have h1 : ¬ ((7 : ℤ) - (myCards.length : ℤ) ≤ 0) := by omega
    have h2 : (3 : ℤ) < 7 - (myCards.length : ℤ) := by omega
    simp only [calculateFlip7Potential]
    rw [if_neg h1, if_pos h2]
  · have h1 : ¬ ((7 : ℤ) - (myCards.length : ℤ) ≤ 0) := by
      have : (0 : ℤ) ≤ ((safeValues myCards pool).length : ℤ) := by positivity
      omega
    simp only [calculateFlip7Potential]
    rw [if_neg h1]
    by_cases h2 : (3 : ℤ) < 7 - (myCards.length : ℤ)
    · rw [if_pos h2]
    · rw [if_neg h2, if_pos h]

/-- Witness for C5 in the interesting regime: hand `{0,1,2,3}` (needed = 3)
against an untouched deck. -/
theorem calculateFlip7Potential_spec_witness :
    calculateFlip7Potential [0, 1, 2, 3] (getUnknownPool (fun _ => 0)) =
      (((safeValues [0, 1, 2, 3] (getUnknownPool (fun _ => 0))).map
          (fun i => (getUnknownPool (fun _ => 0)).vals i)).sum : ℚ) /
          ((getUnknownPool (fun _ => 0)).total : ℚ) *
        (7 / 10 : ℚ) ^ (7 - ([0, 1, 2, 3] : List ℕ).length) :=
  (calculateFlip7Potential_spec [0, 1, 2, 3] (getUnknownPool (fun _ => 0))).2.2.2
    (by decide) (by decide) (by decide)

/-- C10: when `calculateFlip7Potential` reaches its final division
(`1 ≤ needed ≤ 3` and enough distinct safe values) on a pool produced by
`getUnknownPool`, the pool total is strictly positive — so the division is
well-defined — and the result lies in `[0, 1]`. -/
theorem calculateFlip7Potential_safe (myCards : List ℕ) (rc : ℕ → ℕ)
    (h4 : 4 ≤ myCards.length) (h7 : myCards.length < 7)
    (hd : 7 - (myCards.length : ℤ) ≤
      ((safeValues myCards (getUnknownPool rc)).length : ℤ)) :
    0 < (getUnknownPool rc).total ∧
    0 ≤ calculateFlip7Potential myCards (getUnknownPool rc) ∧
    calculateFlip7Potential myCards (getUnknownPool rc) ≤ 1 := by
  have hne : safeValues myCards (getUnknownPool rc) ≠ [] := by
    intro hnil
    rw [hnil] at hd
    simp at hd
    omega
  obtain ⟨i, hi⟩ := List.exists_mem_of_ne_nil _ hne
  have htotpos : 0 < (getUnknownPool rc).total :=
    pos_total_of_mem_safe (getUnknownPool_total rc) hi
  rw [flip7_middle_eq myCards (getUnknownPool rc) h4 h7 hd]
  refine ⟨htotpos, by positivity, ?_⟩
  have hsle : ((safeValues myCards (getUnknownPool rc)).map
      (fun i => (getUnknownPool rc).vals i)).sum ≤ (getUnknownPool rc).total :=
    safe_sum_le_total myCards (getUnknownPool rc) (getUnknownPool_total rc)
  have hbase : (((safeValues myCards (getUnknownPool rc)).map
      (fun i => (getUnknownPool rc).vals i)).sum : ℚ) / ((getUnknownPool rc).total : ℚ) ≤ 1 := by
    rw [div_le_one (by exact_mod_cast htotpos)]
    exact_mod_cast hsle
  have hpow : ((7 : ℚ) / 10) ^ (7 - myCards.length) ≤ 1 :=
    pow_le_one₀ (by norm_num) (by norm_num)
  have hpow0 : (0 : ℚ) ≤ ((7 : ℚ) / 10) ^ (7 - myCards.length) := by positivity
  exact mul_le_one₀ hbase hpow0 hpow

/-- Witness for C10: hand `{0,1,2,3}` against an untouched deck. -/
theorem calculateFlip7Potential_safe_witness :
    0 < (getUnknownPool (fun _ => 0)).total ∧
    0 ≤ calculateFlip7Potential [0, 1, 2, 3] (getUnknownPool (fun _ => 0)) ∧
    calculateFlip7Potential [0, 1, 2, 3] (getUnknownPool (fun _ => 0)) ≤ 1 :=
  calculateFlip7Potential_safe [0, 1, 2, 3] (fun _ => 0) (by decide) (by decide) (by decide)

end Flip7

namespace Flip7

/-- Projections of `calculateStrategy` in the middle regime
(`1 ≤ |hand| < 7`), in terms of the component functions. -/
lemma calculateStrategy_middle (p : StrategyParams) (h0 : ¬ p.myCards.length = 0)
    (h7 : ¬ 7 ≤ p.myCards.length) :
    (calculateStrategy p).bustProbability =
      calculateBustProbability p.myCards (getUnknownPool p.revealedCounts) ∧
    (calculateStrategy p).effectiveBustProbability =
      (if p.hasSecondChance
       then calculateEffectiveBustWithSecondChance
         (calculateBustProbability p.myCards (getUnknownPool p.revealedCounts))
         p.myCards (getUnknownPool p.revealedCounts)
       else calculateBustProbability p.myCards (getUnknownPool p.revealedCounts)) ∧
    (calculateStrategy p).flip7Potential =
      calculateFlip7Potential p.myCards (getUnknownPool p.revealedCounts) ∧
    (calculateStrategy p).evStay = (calculateCurrentPoints p.myCards p.hasX2 : ℚ) ∧
    (calculateStrategy p).evHit =
      (1 - (calculateStrategy p).effectiveBustProbability) *
        ((calculateCurrentPoints p.myCards p.hasX2 : ℚ) +
          calculateExpectedDrawValue p.myCards (getUnknownPool p.revealedCounts) p.hasX2 +
          calculateFlip7Potential p.myCards (getUnknownPool p.revealedCounts) *
            (FLIP_7_BONUS : ℚ)) ∧
    (calculateStrategy p).recommendation =
      (if (calculateStrategy p).evStay < (calculateStrategy p).evHit then "HIT"
       else if (calculateStrategy p).evHit < (calculateStrategy p).evStay then "STAY"
       else "TOSS-UP") ∧
    (calculateStrategy p).dangerCards =
      p.myCards.filter (fun card => decide (0 < (getUnknownPool p.revealedCounts).vals card)) := by
  simp only [calculateStrategy, if_neg h0, if_neg h7]
  refine ⟨?_, ?_, ?_, ?_, ?_, ?_, ?_⟩ <;> trivial

/-- C1: in the middle regime (`1 ≤ |hand| < 7`), `evStay` is the held sum
times 2 under ×2 (else 1), `evHit` is
`(1 − effectiveBustProbability) × (currentPoints + expectedDrawValue + flip7Potential × 15)`,
and the recommendation is `HIT` / `STAY` / `TOSS-UP` by exact comparison of
`evHit` with `evStay`. -/
theorem calculateStrategy_middle_regime_spec (p : StrategyParams)
    (h1 : 1 ≤ p.myCards.length) (h7 : p.myCards.length < 7) :
    (calculateStrategy p).evStay = (p.myCards.sum : ℚ) * (if p.hasX2 then 2 else 1) ∧
    (calculateStrategy p).evHit =
      (1 - (calculateStrategy p).effectiveBustProbability) *
        ((calculateCurrentPoints p.myCards p.hasX2 : ℚ) +
          calculateExpectedDrawValue p.myCards (getUnknownPool p.revealedCounts) p.hasX2 +
          (calculateStrategy p).flip7Potential * 15) ∧
    (calculateStrategy p).recommendation =
      (if (calculateStrategy p).evStay < (calculateStrategy p).evHit then "HIT"
       else if (calculateStrategy p).evHit < (calculateStrategy p).evStay then "STAY"
       else "TOSS-UP") := by
  have h0 : ¬ p.myCards.length = 0 := by omega
  have h7' : ¬ 7 ≤ p.myCards.length := by omega
  obtain ⟨hb, he, hf, hs, hh, hr, hdc⟩ := calculateStrategy_middle p h0 h7'
  refine ⟨?_, ?_, hr⟩
  · rw [hs]
    cases hx : p.hasX2 <;> simp [calculateCurrentPoints, hx]
  · rw [hh, hf]
    norm_num [FLIP_7_BONUS]

/-- Witness for C1: hand `{5}` with that 5 revealed, no modifiers;
`evStay = 5`. -/
theorem calculateStrategy_middle_regime_spec_witness :
    (calculateStrategy ⟨[5], fun v => if v = 5 then 1 else 0, false, false⟩).evStay = 5 := by
  have h := (calculateStrategy_middle_regime_spec
    ⟨[5], fun v => if v = 5 then 1 else 0, false, false⟩ (by decide) (by decide)).1
  simpa using h

/-- C6: `calculateEffectiveBustWithSecondChance` is `pBust² × 0.8` for every
input, and `calculateStrategy` reports it as the effective bust probability
exactly when `hasSecondChance` is set, the raw bust probability otherwise
(on the early-return branches both probabilities are 0 and the equation holds
trivially). -/
theorem secondChance_spec (pB : ℚ) (mc : List ℕ) (pool : Pool) (p : StrategyParams) :
    calculateEffectiveBustWithSecondChance pB mc pool = pB * pB * (8 / 10 : ℚ) ∧
    (calculateStrategy p).effectiveBustProbability =
      (if p.hasSecondChance
       then calculateEffectiveBustWithSecondChance (calculateStrategy p).bustProbability
         p.myCards (getUnknownPool p.revealedCounts)
       else (calculateStrategy p).bustProbability) := by
  refine ⟨rfl, ?_⟩
  by_cases h0 : p.myCards.length = 0
  · cases hsc : p.hasSecondChance <;>
      simp [calculateStrategy, h0, hsc, calculateEffectiveBustWithSecondChance]
  · by_cases h7 : 7 ≤ p.myCards.length
    · cases hsc : p.hasSecondChance <;>
        simp [calculateStrategy, h0, h7, hsc, calculateEffectiveBustWithSecondChance]
    · obtain ⟨hb, he, -, -, -, -, -⟩ := calculateStrategy_middle p h0 h7
      rw [he, hb]

/-- C9: with seven or more cards, the recommendation is `STAY`, both expected
values equal the (possibly doubled) held sum plus the 15-point bonus, the
bust probability is 0, and no danger cards are reported. -/
theorem calculateStrategy_seven_spec (p : StrategyParams) (h7 : 7 ≤ p.myCards.length) :
    (calculateStrategy p).recommendation = "STAY" ∧
    (calculateStrategy p).evHit = (p.myCards.sum : ℚ) * (if p.hasX2 then 2 else 1) + 15 ∧
    (calculateStrategy p).evStay = (calculateStrategy p).evHit ∧
    (calculateStrategy p).bustProbability = 0 ∧
    (calculateStrategy p).dangerCards = [] := by
  have h0 : ¬ p.myCards.length = 0 := by omega
  simp only [calculateStrategy, if_neg h0, if_pos h7]
  refine ⟨by trivial, ?_, by trivial, by trivial, by trivial⟩
  cases hx : p.hasX2 <;> simp [calculateCurrentPoints, hx, FLIP_7_BONUS]

/-- Witness for C9 on the spec's example: hand `{1,…,7}`, no modifiers;
`STAY` with `evHit = evStay = 43`. -/
theorem calculateStrategy_seven_spec_witness :
    (calculateStrategy ⟨[1, 2, 3, 4, 5, 6, 7], fun _ => 0, false, false⟩).recommendation =
      "STAY" ∧
    (calculateStrategy ⟨[1, 2, 3, 4, 5, 6, 7], fun _ => 0, false, false⟩).evHit = 43 ∧
    (calculateStrategy ⟨[1, 2, 3, 4, 5, 6, 7], fun _ => 0, false, false⟩).evStay = 43 := by
  obtain ⟨hr, hh, hs, -, -⟩ := calculateStrategy_seven_spec
    ⟨[1, 2, 3, 4, 5, 6, 7], fun _ => 0, false, false⟩ (by decide)
  have hv : (calculateStrategy
      ⟨[1, 2, 3, 4, 5, 6, 7], fun _ => 0, false, false⟩).evHit = 43 := by
    rw [hh]
    norm_num
  exact ⟨hr, hv, by rw [hs, hv]⟩

end Flip7

namespace Flip7

/-- Concrete value: bust probability for hand `{0,1,2,3}` against an untouched
deck. -/
lemma bust_0123_value :
    calculateBustProbability [0, 1, 2, 3] (getUnknownPool (fun _ => 0)) = 7 / 79 := by
  have h1 : (getUnknownPool (fun _ => 0)).total = 79 := rfl
  have h2 : (([0, 1, 2, 3] : List ℕ).map
      (fun card => (getUnknownPool (fun _ => 0)).vals card)).sum = 7 := rfl
  unfold calculateBustProbability
  rw [h2, h1]
  norm_num

/-- Concrete value: expected draw value for hand `{0,1,2,3}`, no ×2. -/
lemma edv_0123_false_value :
    calculateExpectedDrawValue [0, 1, 2, 3] (getUnknownPool (fun _ => 0)) false = 53 / 6 := by
  have h1 : (getUnknownPool (fun _ => 0)).total = 79 := rfl
  have hscc : ((safeValues [0, 1, 2, 3] (getUnknownPool (fun _ => 0))).map
      (fun i => (getUnknownPool (fun _ => 0)).vals i)).sum = 72 := rfl
  have hws : ((safeValues [0, 1, 2, 3] (getUnknownPool (fun _ => 0))).map
      (fun i => i * (getUnknownPool (fun _ => 0)).vals i)).sum = 636 := rfl
  simp only [calculateExpectedDrawValue, hscc, hws, h1]
  norm_num

/-- Concrete value: expected draw value for hand `{0,1,2,3}` with ×2. -/
lemma edv_0123_true_value :
    calculateExpectedDrawValue [0, 1, 2, 3] (getUnknownPool (fun _ => 0)) true = 53 / 3 := by
  have h1 : (getUnknownPool (fun _ => 0)).total = 79 := rfl
  have hscc : ((safeValues [0, 1, 2, 3] (getUnknownPool (fun _ => 0))).map
      (fun i => (getUnknownPool (fun _ => 0)).vals i)).sum = 72 := rfl
  have hws : ((safeValues [0, 1, 2, 3] (getUnknownPool (fun _ => 0))).map
      (fun i => i * (getUnknownPool (fun _ => 0)).vals i)).sum = 636 := rfl
  simp only [calculateExpectedDrawValue, hscc, hws, h1]
  norm_num

/-- Concrete value: flip-7 potential for hand `{0,1,2,3}`. -/
lemma f7_0123_value :
    calculateFlip7Potential [0, 1, 2, 3] (getUnknownPool (fun _ => 0)) = 3087 / 9875 := by
  rw [flip7_middle_eq [0, 1, 2, 3] (getUnknownPool (fun _ => 0))
    (by decide) (by decide) (by decide)]
  have h1 : (getUnknownPool (fun _ => 0)).total = 79 := rfl
  have hscc : ((safeValues [0, 1, 2, 3] (getUnknownPool (fun _ => 0))).map
      (fun i => (getUnknownPool (fun _ => 0)).vals i)).sum = 72 := rfl
  rw [hscc, h1]
  norm_num

/-- C7 counterexample: toggling ×2 on hand `{0,1,2,3}` (untouched deck, no
second chance) does not exactly double `evHit` — the flip-7 bonus term in the
hit expectation is not doubled by ×2, so the claimed factor-of-two scaling of
`evHit` fails. -/
theorem hasX2_doubles_evHit_counterexample :
    ¬ ((calculateStrategy ⟨[0, 1, 2, 3], fun _ => 0, false, true⟩).evHit =
        2 * (calculateStrategy ⟨[0, 1, 2, 3], fun _ => 0, false, false⟩).evHit) := by
  obtain ⟨hb1, he1, hf1, -, hh1, -, -⟩ :=
    calculateStrategy_middle ⟨[0, 1, 2, 3], fun _ => 0, false, true⟩ (by decide) (by decide)
  obtain ⟨hb0, he0, hf0, -, hh0, -, -⟩ :=
    calculateStrategy_middle ⟨[0, 1, 2, 3], fun _ => 0, false, false⟩ (by decide) (by decide)
  rw [hh1, hh0, he1, he0]
  have hcp0 : calculateCurrentPoints [0, 1, 2, 3] false = 6 := rfl
  have hcp1 : calculateCurrentPoints [0, 1, 2, 3] true = 12 := rfl
  simp only [bust_0123_value, edv_0123_false_value, edv_0123_true_value, f7_0123_value,
    hcp0, hcp1, FLIP_7_BONUS]
  norm_num

/-- C7 (amended): toggling ×2 exactly doubles `expectedDrawValue`,
`currentPoints`, and hence `evStay`, and leaves the bust/flip-7 terms
unchanged; `evHit`, however, satisfies
`evHit(×2) = 2·evHit − (1 − effectiveBustProbability)·flip7Potential·15`, so
it is exactly doubled only when the flip-7 bonus contribution vanishes. -/
theorem hasX2_doubling_spec (mc : List ℕ) (rc : ℕ → ℕ) (sc : Bool)
    (h1 : 1 ≤ mc.length) (h7 : mc.length < 7) :
    calculateExpectedDrawValue mc (getUnknownPool rc) true =
      2 * calculateExpectedDrawValue mc (getUnknownPool rc) false ∧
    (calculateCurrentPoints mc true : ℚ) = 2 * (calculateCurrentPoints mc false : ℚ) ∧
    (calculateStrategy ⟨mc, rc, sc, true⟩).evStay =
      2 * (calculateStrategy ⟨mc, rc, sc, false⟩).evStay ∧
    (calculateStrategy ⟨mc, rc, sc, true⟩).effectiveBustProbability =
      (calculateStrategy ⟨mc, rc, sc, false⟩).effectiveBustProbability ∧
    (calculateStrategy ⟨mc, rc, sc, true⟩).flip7Potential =
      (calculateStrategy ⟨mc, rc, sc, false⟩).flip7Potential ∧
    (calculateStrategy ⟨mc, rc, sc, true⟩).evHit =
      2 * (calculateStrategy ⟨mc, rc, sc, false⟩).evHit -
        (1 - (calculateStrategy ⟨mc, rc, sc, false⟩).effectiveBustProbability) *
          ((calculateStrategy ⟨mc, rc, sc, false⟩).flip7Potential * 15) := by
  have h0 : ¬ mc.length = 0 := by omega
  have h7' : ¬ 7 ≤ mc.length := by omega
  have hedv : calculateExpectedDrawValue mc (getUnknownPool rc) true =
      2 * calculateExpectedDrawValue mc (getUnknownPool rc) false := by
    by_cases hT : (getUnknownPool rc).total = 0
    · simp [calculateExpectedDrawValue, hT]
    · by_cases hscc : ((safeValues mc (getUnknownPool rc)).map
          (fun i => (getUnknownPool rc).vals i)).sum = 0
      · simp [calculateExpectedDrawValue, hT, hscc]
      · simp only [calculateExpectedDrawValue, if_neg hT, if_neg hscc]
        simp
        ring
  have hcp : (calculateCurrentPoints mc true : ℚ) =
      2 * (calculateCurrentPoints mc false : ℚ) := by
    simp [calculateCurrentPoints]
    ring
  obtain ⟨hb1, he1, hf1, hs1, hh1, -, -⟩ :=
    calculateStrategy_middle ⟨mc, rc, sc, true⟩ h0 h7'
  obtain ⟨hb0, he0, hf0, hs0, hh0, -, -⟩ :=
    calculateStrategy_middle ⟨mc, rc, sc, false⟩ h0 h7'
  dsimp only at he1 hf1 hs1 hh1 he0 hf0 hs0 hh0
  have heff : (calculateStrategy ⟨mc, rc, sc, true⟩).effectiveBustProbability =
      (calculateStrategy ⟨mc, rc, sc, false⟩).effectiveBustProbability := by
    rw [he1, he0]
  have hfl : (calculateStrategy ⟨mc, rc, sc, true⟩).flip7Potential =
      (calculateStrategy ⟨mc, rc, sc, false⟩).flip7Potential := by
    rw [hf1, hf0]
  refine ⟨hedv, hcp, ?_, heff, hfl, ?_⟩
  · rw [hs1, hs0]
    exact hcp
  · rw [hh1, hh0, he1, he0, hf0, hedv, hcp]
    simp only [FLIP_7_BONUS]
    push_cast
    ring

/-- Witness for the amended C7: on hand `{0,1,2,3}` with an untouched deck,
toggling ×2 exactly doubles `evStay`. -/
theorem hasX2_doubling_spec_witness :
    (calculateStrategy ⟨[0, 1, 2, 3], fun _ => 0, false, true⟩).evStay =
      2 * (calculateStrategy ⟨[0, 1, 2, 3], fun _ => 0, false, false⟩).evStay :=
  (hasX2_doubling_spec [0, 1, 2, 3] (fun _ => 0) false (by decide) (by decide)).2.2.1

end Flip7

namespace Flip7

/-- Replacing the count at one held value by `count + k` raises the summed
danger count by exactly `k`, for a duplicate-free hand. -/
lemma sum_map_update (l : List ℕ) (f f' : ℕ → ℕ) (v k : ℕ) (hnd : l.Nodup) (hv : v ∈ l)
    (hagree : ∀ w, w ≠ v → f' w = f w) (hval : f' v = f v + k) :
    (l.map f').sum = (l.map f).sum + k := by
  induction l with
  | nil => cases hv
  | cons a t ih =>
    rcases List.mem_cons.1 hv with hva | hvt
    · subst hva
      have hta : t.map f' = t.map f := by
        apply List.map_congr_left
        intro w hw
        refine hagree w (fun hwv => ?_)
        exact (List.nodup_cons.1 hnd).1 (hwv ▸ hw)
      simp only [List.map_cons, List.sum_cons, hval, hta]
      omega
    · have ha : a ≠ v := fun h => (List.nodup_cons.1 hnd).1 (by rw [h]; exact hvt)
      simp only [List.map_cons, List.sum_cons, hagree a ha,
        ih (List.nodup_cons.1 hnd).2 hvt]
      omega

/-- C8: the bust probability is monotonically non-decreasing in the pool count
of any held value: raising `pool[v]` by `k` (and therefore `pool.total` by
`k`) for a held `v` never lowers the result, for a duplicate-free hand of face
values in `0..12` and an honest pool (`total` = sum of the thirteen
entries, as `getUnknownPool` guarantees). -/
theorem calculateBustProbability_monotone (myCards : List ℕ) (pool : Pool) (v k : ℕ)
    (vals' : ℕ → ℕ)
    (hnd : myCards.Nodup) (hmem : ∀ c ∈ myCards, c ≤ 12) (hv : v ∈ myCards)
    (htot : pool.total = ((List.range 13).map pool.vals).sum)
    (hagree : ∀ w, w ≠ v → vals' w = pool.vals w)
    (hval : vals' v = pool.vals v + k) :
    calculateBustProbability myCards pool ≤
      calculateBustProbability myCards ⟨vals', pool.total + k⟩ := by
  have hsum : (myCards.map (fun card => vals' card)).sum =
      (myCards.map (fun card => pool.vals card)).sum + k :=
    sum_map_update myCards (fun card => pool.vals card) (fun card => vals' card) v k
      hnd hv hagree hval
  simp only [calculateBustProbability]
  by_cases hT : pool.total = 0
  · rw [if_pos hT]
    split
    · exact le_refl 0
    · positivity
  · have hTk : ¬ (pool.total + k = 0) := by omega
    rw [if_neg hT, if_neg hTk, hsum]
    have hDT : (myCards.map (fun card => pool.vals card)).sum ≤ pool.total := by
      rw [htot]
      exact list_sum_le_range13 _ myCards hnd (fun c hc => by have := hmem c hc; omega)
    rw [div_le_div_iff₀ (by exact_mod_cast Nat.pos_of_ne_zero hT)
      (by exact_mod_cast Nat.pos_of_ne_zero hTk)]
    have hnat : (myCards.map (fun card => pool.vals card)).sum * (pool.total + k) ≤
        ((myCards.map (fun card => pool.vals card)).sum + k) * pool.total := by
      nlinarith [hDT]
    exact_mod_cast hnat

/-- Witness for C8: hand `{5}` against an untouched deck, with two more unseen
copies of 5 added to the pool. -/
theorem calculateBustProbability_monotone_witness :
    calculateBustProbability [5] (getUnknownPool (fun _ => 0)) ≤
      calculateBustProbability [5]
        ⟨fun w => if w = 5 then 7 else (getUnknownPool (fun _ => 0)).vals w,
          (getUnknownPool (fun _ => 0)).total + 2⟩ :=
  calculateBustProbability_monotone [5] (getUnknownPool (fun _ => 0)) 5 2
    (fun w => if w = 5 then 7 else (getUnknownPool (fun _ => 0)).vals w)
    (by decide) (by decide) (by decide) rfl
    (fun w hw => if_neg hw) (by decide)

end Flip7
